import Mathlib

/-!
Verification of the tui-realm component core: a shallow embedding of the
`List` and `Label` widgets (src/components/list.rs, src/components/label.rs)
together with the property-store data they read, and proofs of the spec's
testable properties about them.

The property/event/message value types (`Props`, `Event`, `Msg`, `Payload`)
and the render helpers (`utils::get_block`, `utils::use_or_default_styles`)
live in crate modules outside the provided sources; where needed they are
modelled from the spec (each such definition says so in its doc comment).
All widget logic (`OwnStates`, `List`, `Label`, the props builders) is
translated directly from the Rust sources.
-/

namespace TuiRealm

/-- Terminal colors (tui `Color`); a representative closed set of the
variants used by the components. `reset` is the neutral default. -/
inductive Color where
  | reset
  | black
  | white
  | red
  | green
  | blue
  | yellow
deriving DecidableEq, Repr

/-- Text-style modifiers as an independent bit-set (tui `Modifier`),
one flag per style attribute. -/
structure Modifier where
  bold : Bool := false
  italic : Bool := false
  underlined : Bool := false
  slowBlink : Bool := false
  rapidBlink : Bool := false
  reversed : Bool := false
  crossedOut : Bool := false
deriving DecidableEq, Repr

/-- Which border edges are drawn (tui `Borders` bitflags). -/
structure BorderSides where
  top : Bool := false
  bottom : Bool := false
  left : Bool := false
  right : Bool := false
deriving DecidableEq, Repr

/-- Border line variant (tui `BorderType`). -/
inductive BorderType where
  | plain
  | rounded
  | double
  | thick
deriving DecidableEq, Repr

/-- Border description stored in the property store (`BordersProps`). -/
structure BordersProps where
  borders : BorderSides := {}
  variant : BorderType := BorderType.plain
  color : Color := Color.reset
deriving DecidableEq, Repr

/-- Text alignment (tui `Alignment`). -/
inductive Alignment where
  | left
  | center
  | right
deriving DecidableEq, Repr

/-- A styled text fragment (`TextSpan`): content plus optional style
overrides; `Color.reset` / empty modifiers mean "use the widget default". -/
structure TextSpan where
  content : String
  fg : Color := Color.reset
  bg : Color := Color.reset
  modifiers : Modifier := {}
deriving DecidableEq, Repr

/-- A table of rows of styled text fragments (`props::Table`). -/
abbrev TextTable := List (List TextSpan)

/-- A single typed property value (`PropValue`); the variants the List and
Label components pattern-match on. -/
inductive PropValue where
  | str (s : String)
  | bool (b : Bool)
  | usize (n : Nat)
  | table (t : TextTable)
  | alignment (a : Alignment)
  | color (c : Color)
deriving DecidableEq, Repr

/-- A tagged payload in the `own` property map (`PropPayload`): a single
value or an ordered sequence of values. -/
inductive PropPayload where
  | One (v : PropValue)
  | Vec (vs : List PropValue)
deriving DecidableEq, Repr

/-- Lookup in an association list by string key (the string-keyed maps of
the property store). -/
def getAssoc {α : Type} (key : String) : List (String × α) → Option α
  | [] => none
  | (k, v) :: rest => if k = key then some v else getAssoc key rest

/-- Insert-or-replace in an association list by string key. -/
def insertAssoc {α : Type} (key : String) (value : α) : List (String × α) → List (String × α)
  | [] => [(key, value)]
  | (k, v) :: rest =>
    if k = key then (key, value) :: rest else (k, v) :: insertAssoc key value rest

/-- Remove a string key from an association list. -/
def removeAssoc {α : Type} (key : String) : List (String × α) → List (String × α)
  | [] => []
  | (k, v) :: rest => if k = key then rest else (k, v) :: removeAssoc key rest

/-- The property store (`Props`): visibility, fixed display attributes,
borders, the named-color palette, and the open named payload map. -/
structure Props where
  visible : Bool
  foreground : Color
  background : Color
  modifiers : Modifier
  borders : BordersProps
  palette : List (String × Color)
  own : List (String × PropPayload)
deriving DecidableEq, Repr

/-- Modelled from the spec: `Props::default()` (props module not among the
provided sources) — the all-defaults store: visible, neutral colors, no
modifiers, default borders, empty palette and payload map. -/
def Props.default : Props where
  visible := true
  foreground := Color.reset
  background := Color.reset
  modifiers := {}
  borders := {}
  palette := []
  own := []

/-- Key codes (`event::KeyCode`); the navigation keys the List handles plus
representative others. -/
inductive KeyCode where
  | Down
  | Up
  | PageDown
  | PageUp
  | End
  | Home
  | Delete
  | Enter
  | Backspace
  | char (c : Char)
deriving DecidableEq, Repr

/-- A key event: code plus a modifier bit-set (`KeyEvent`); `0` is "no
modifiers", as produced by `KeyEvent::from(code)`. -/
structure KeyEvent where
  code : KeyCode
  modifiers : Nat := 0
deriving DecidableEq, Repr

/-- Modelled from the spec: the input event surface (§6) — a closed variant
of key event, mouse event, resize and tick (event module not among the
provided sources). -/
inductive Event where
  | Key (e : KeyEvent)
  | Mouse
  | Resize (w h : Nat)
  | Tick
deriving DecidableEq, Repr

/-- The externally observable component value (`Payload`); List and Label
only ever produce `Payload.None`. -/
inductive Payload where
  | None
  | Unsigned (n : Nat)
  | Text (s : String)
deriving DecidableEq, Repr

/-- Messages emitted by components (`Msg`): a raw key echo, a no-op, or a
value-carrying event. -/
inductive Msg where
  | None
  | OnKey (e : KeyEvent)
  | OnSubmit (p : Payload)
deriving DecidableEq, Repr

-- -- Property keys used by List and Label (string constants in the sources)

def COLOR_HIGHLIGHTED : String := "highlighted-color"

def PROP_SCROLLABLE : String := "scrollable"

def PROP_HIGHLIGHTED_TXT : String := "highlighted-txt"

def PROP_MAX_STEP : String := "max-step"

def PROP_TABLE : String := "table"

def PROP_TITLE : String := "title"

def PROP_ALIGNMENT : String := "text-alignment"

def PROP_TEXT : String := "text"

-- -- List: OwnStates (list.rs, `struct OwnStates` and its impl)

/-- The List widget's private state: focus flag, selected index, cached
row count. -/
structure OwnStates where
  focus : Bool
  list_index : Nat
  list_len : Nat
deriving DecidableEq, Repr

/-- Embeds `OwnStates::set_list_len`. -/
def OwnStates.set_list_len (s : OwnStates) (len : Nat) : OwnStates :=
  { s with list_len := len }

/-- Embeds `OwnStates::incr_list_index`: increment unless at the last element. -/
def OwnStates.incr_list_index (s : OwnStates) : OwnStates :=
  if s.list_index + 1 < s.list_len then { s with list_index := s.list_index + 1 } else s

/-- Embeds `OwnStates::decr_list_index`: decrement unless at zero. -/
def OwnStates.decr_list_index (s : OwnStates) : OwnStates :=
  if s.list_index > 0 then { s with list_index := s.list_index - 1 } else s

/-- Embeds `OwnStates::fix_list_index`: keep the index if possible, otherwise set
to `len - 1` (or 0 when the list is empty). -/
def OwnStates.fix_list_index (s : OwnStates) : OwnStates :=
  if s.list_index ≥ s.list_len ∧ s.list_len > 0 then { s with list_index := s.list_len - 1 }
  else if s.list_len = 0 then { s with list_index := 0 }
  else s

/-- Embeds `OwnStates::list_index_at_first`. -/
def OwnStates.list_index_at_first (s : OwnStates) : OwnStates :=
  { s with list_index := 0 }

/-- Embeds `OwnStates::list_index_at_last`. -/
def OwnStates.list_index_at_last (s : OwnStates) : OwnStates :=
  if s.list_len > 0 then { s with list_index := s.list_len - 1 } else { s with list_index := 0 }

/-- Embeds `OwnStates::calc_max_step_ahead`: the scroll step is the remaining rows
below the index, capped at `max`. -/
def OwnStates.calc_max_step_ahead (s : OwnStates) (max : Nat) : Nat :=
  let remaining : Nat :=
    match s.list_len with
    | 0 => 0
    | len => len - 1 - s.list_index
  if remaining > max then max else remaining

/-- Embeds `OwnStates::calc_max_step_behind`: the scroll step is the index itself,
capped at `max`. -/
def OwnStates.calc_max_step_behind (s : OwnStates) (max : Nat) : Nat :=
  if s.list_index > max then max else s.list_index

-- -- List component (list.rs, `struct List` and `impl Component for List`)

/-- The List component (`struct List`): a property store paired with the
private `OwnStates`. Named `ListComp` because `List` is taken in Lean. -/
structure ListComp where
  props : Props
  states : OwnStates
deriving DecidableEq, Repr

/-- Row count of the `table` payload of a property store: the length of the
table when present, 0 when the entry is absent or not a table (the match
in `List::new` and `List::update`). -/
def tableLen (props : Props) : Nat :=
  match getAssoc PROP_TABLE props.own with
  | some (PropPayload.One (PropValue.table t)) => t.length
  | _ => 0

/-- Embeds `List::new`: unfocused, index 0, length from the table payload. -/
def ListComp.new (props : Props) : ListComp :=
  { props
    states :=
      { focus := false
        list_index := 0
        list_len := tableLen props } }

/-- The value of the `scrollable` payload flag of a property store; false by
default (the match in `List::scrollable`). -/
def scrollableFlag (props : Props) : Bool :=
  match getAssoc PROP_SCROLLABLE props.own with
  | some (PropPayload.One (PropValue.bool scrollable)) => scrollable
  | _ => false

/-- Embeds `List::scrollable`: the `scrollable` payload flag of the
component's own props. -/
def ListComp.scrollable (l : ListComp) : Bool :=
  scrollableFlag l.props

/-- Embeds `List::get_props`: a copy of the component properties. -/
def ListComp.get_props (l : ListComp) : Props :=
  l.props

/-- Embeds `List::get_state`: always `Payload::None`. -/
def ListComp.get_state (_ : ListComp) : Payload :=
  Payload.None

/-- Embeds `List::blur`: unconditionally clear the focus flag. -/
def ListComp.blur (l : ListComp) : ListComp :=
  { l with states := { l.states with focus := false } }

/-- Embeds `List::active`: set the focus flag only when scrollable. -/
def ListComp.active (l : ListComp) : ListComp :=
  if l.scrollable then { l with states := { l.states with focus := true } } else l

/-- Embeds `List::update`: replace the props, re-derive the length from the
new table payload, fix the index, and blur when the new props are
scrollable; always returns `Msg::None`. -/
def ListComp.update (l : ListComp) (props : Props) : ListComp × Msg :=
  let l1 : ListComp := { l with props := props }
  let l2 : ListComp :=
    { l1 with states := (l1.states.set_list_len (tableLen props)).fix_list_index }
  let l3 : ListComp := if l2.scrollable then l2.blur else l2
  (l3, Msg.None)

/-- Embeds the `max-step` payload lookup inside `List::on`: the configured
PageUp/PageDown step cap, 8 by default. -/
def ListComp.max_step (l : ListComp) : Nat :=
  match getAssoc PROP_MAX_STEP l.props.own with
  | some (PropPayload.One (PropValue.usize step)) => step
  | _ => 8

/-- Embeds `List::on`: navigation keys move the index while the scrollable
flag is set; every key event echoes `Msg::OnKey`, every other event yields
`Msg::None` and changes nothing. -/
def ListComp.on (l : ListComp) (ev : Event) : ListComp × Msg :=
  match ev with
  | Event.Key key =>
    if l.scrollable then
      match key.code with
      | KeyCode.Down =>
        ({ l with states := l.states.incr_list_index }, Msg.OnKey key)
      | KeyCode.Up =>
        ({ l with states := l.states.decr_list_index }, Msg.OnKey key)
      | KeyCode.PageDown =>
        let step : Nat := l.states.calc_max_step_ahead l.max_step
        ({ l with states := Nat.iterate OwnStates.incr_list_index step l.states },
          Msg.OnKey key)
      | KeyCode.PageUp =>
        let step : Nat := l.states.calc_max_step_behind l.max_step
        ({ l with states := Nat.iterate OwnStates.decr_list_index step l.states },
          Msg.OnKey key)
      | KeyCode.End =>
        ({ l with states := l.states.list_index_at_last }, Msg.OnKey key)
      | KeyCode.Home =>
        ({ l with states := l.states.list_index_at_first }, Msg.OnKey key)
      | _ => (l, Msg.OnKey key)
    else
      (l, Msg.OnKey key)
  | _ => (l, Msg.None)

-- -- Render model

/-- The data `utils::get_block` receives: the border description, the
optional title and the active flag (the block itself is an external tui
value, so the render model records the inputs that determine it). -/
structure BlockData where
  borders : BordersProps
  title : Option String
  active : Bool
deriving DecidableEq, Repr

/-- One styled span as passed to the tui list widget: content plus the
resolved style. -/
structure StyledSpan where
  content : String
  fg : Color
  bg : Color
  modifiers : Modifier
deriving DecidableEq, Repr

/-- Modelled from the spec: `utils::use_or_default_styles` (utils module not
among the provided sources) — a span's own fg/bg/modifiers when set,
falling back to the widget's configured defaults (§4.3, §7: missing payload
entries resolve to widget defaults). -/
def use_or_default_styles (props : Props) (col : TextSpan) : Color × Color × Modifier :=
  ( if col.fg = Color.reset then props.foreground else col.fg
  , if col.bg = Color.reset then props.background else col.bg
  , if col.modifiers = {} then props.modifiers else col.modifiers )

/-- Everything `List::render` hands to the tui draw call: the block inputs,
the styled items, the highlight style, the highlight symbol, and the
selected index when rendered statefully (scrollable). -/
structure ListRender where
  block : BlockData
  items : List (List StyledSpan)
  highlight_fg : Color
  highlight_bg : Color
  highlight_modifiers : Modifier
  highlight_symbol : Option String
  selected : Option Nat
deriving DecidableEq, Repr

/-- Embeds `List::render` as a pure function onto the drawn data: `none`
when the component is invisible (the draw is a no-op), otherwise the widget
description passed to the render engine. -/
def ListComp.render (l : ListComp) : Option ListRender :=
  if l.props.visible then
    let active : Bool :=
      match l.scrollable with
      | true => l.states.focus
      | false => true
    let title : Option String :=
      match getAssoc PROP_TITLE l.props.own with
      | some (PropPayload.One (PropValue.str t)) => some t
      | _ => none
    let list_items : List (List StyledSpan) :=
      match getAssoc PROP_TABLE l.props.own with
      | some (PropPayload.One (PropValue.table table)) =>
        table.map (fun row =>
          row.map (fun col =>
            let styles := use_or_default_styles l.props col
            { content := col.content
              fg := styles.1
              bg := styles.2.1
              modifiers := styles.2.2 }))
      | _ => []
    let highlighted_color : Color :=
      match getAssoc COLOR_HIGHLIGHTED l.props.palette with
      | none =>
        match l.states.focus with
        | true => l.props.background
        | false => l.props.foreground
      | some color => color
    let fgbg : Color × Color :=
      match active with
      | true => (l.props.background, highlighted_color)
      | false => (highlighted_color, l.props.background)
    let highlight_symbol : Option String :=
      match getAssoc PROP_HIGHLIGHTED_TXT l.props.own with
      | some (PropPayload.One (PropValue.str highlight)) => some highlight
      | _ => none
    some
      { block := { borders := l.props.borders, title := title, active := active }
        items := list_items
        highlight_fg := fgbg.1
        highlight_bg := fgbg.2
        highlight_modifiers := l.props.modifiers
        highlight_symbol := highlight_symbol
        selected := if l.scrollable then some l.states.list_index else none }
  else
    none

-- -- Label component (label.rs)

/-- The Label component (`struct Label`): only a property store, no private
state. -/
structure Label where
  props : Props
deriving DecidableEq, Repr

/-- Embeds `Label::new`. -/
def Label.new (props : Props) : Label :=
  { props }

/-- Embeds `Label::update`: replace the props, return `Msg::None`. -/
def Label.update (l : Label) (props : Props) : Label × Msg :=
  ({ l with props := props }, Msg.None)

/-- Embeds `Label::get_props`. -/
def Label.get_props (l : Label) : Props :=
  l.props

/-- Embeds `Label::on`: echo key events as `Msg::OnKey`, everything else is
`Msg::None`; the component never changes. -/
def Label.on (l : Label) (ev : Event) : Label × Msg :=
  match ev with
  | Event.Key key => (l, Msg.OnKey key)
  | _ => (l, Msg.None)

/-- Embeds `Label::get_state`: always `Payload::None`. -/
def Label.get_state (_ : Label) : Payload :=
  Payload.None

/-- Embeds `Label::blur`: a no-op. -/
def Label.blur (l : Label) : Label :=
  l

/-- Embeds `Label::active`: a no-op. -/
def Label.active (l : Label) : Label :=
  l

/-- Everything `Label::render` hands to the tui draw call. -/
structure LabelRender where
  text : String
  alignment : Alignment
  fg : Color
  bg : Color
  modifiers : Modifier
deriving DecidableEq, Repr

/-- Embeds `Label::render` as a pure function onto the drawn data: `none`
when invisible. -/
def Label.render (l : Label) : Option LabelRender :=
  if l.props.visible then
    let text : String :=
      match getAssoc PROP_TEXT l.props.own with
      | some (PropPayload.One (PropValue.str t)) => t
      | _ => ""
    let alignment : Alignment :=
      match getAssoc PROP_ALIGNMENT l.props.own with
      | some (PropPayload.One (PropValue.alignment a)) => a
      | _ => Alignment.left
    some
      { text := text
        alignment := alignment
        fg := l.props.foreground
        bg := l.props.background
        modifiers := l.props.modifiers }
  else
    none

-- -- Props builders (list.rs `ListPropsBuilder`, label.rs `LabelPropsBuilder`)

/-- Embeds `ListPropsBuilder`: an optional property store; `build` takes it
out, so a consumed builder holds `none`. -/
structure ListPropsBuilder where
  props : Option Props
deriving DecidableEq, Repr

/-- Embeds `ListPropsBuilder::default()`: a fresh builder holding the
default props. -/
def ListPropsBuilder.default : ListPropsBuilder :=
  { props := some Props.default }

/-- Embeds `PropsBuilder::build` for `ListPropsBuilder`:
`self.props.take().unwrap()` — `none` models the panic on an
already-consumed builder, otherwise the props come out and the builder is
left empty. -/
def ListPropsBuilder.build (b : ListPropsBuilder) : Option (Props × ListPropsBuilder) :=
  match b.props with
  | some p => some (p, { props := none })
  | none => none

/-- Modifies the builder's props in place when still present (the
`if let Some(props) = self.props.as_mut()` pattern of every setter). -/
def ListPropsBuilder.modify (b : ListPropsBuilder) (f : Props → Props) : ListPropsBuilder :=
  match b.props with
  | some p => { props := some (f p) }
  | none => b

/-- Embeds `ListPropsBuilder::with_foreground`. -/
def ListPropsBuilder.with_foreground (b : ListPropsBuilder) (color : Color) : ListPropsBuilder :=
  b.modify (fun p => { p with foreground := color })

/-- Embeds `ListPropsBuilder::with_background`. -/
def ListPropsBuilder.with_background (b : ListPropsBuilder) (color : Color) : ListPropsBuilder :=
  b.modify (fun p => { p with background := color })

/-- Embeds `ListPropsBuilder::with_highlighted_color`. -/
def ListPropsBuilder.with_highlighted_color (b : ListPropsBuilder) (color : Color) :
    ListPropsBuilder :=
  b.modify (fun p => { p with palette := insertAssoc COLOR_HIGHLIGHTED color p.palette })

/-- Embeds `PropsBuilder::visible` for `ListPropsBuilder`. -/
def ListPropsBuilder.visible (b : ListPropsBuilder) : ListPropsBuilder :=
  b.modify (fun p => { p with visible := true })

/-- Embeds `PropsBuilder::hidden` for `ListPropsBuilder`. -/
def ListPropsBuilder.hidden (b : ListPropsBuilder) : ListPropsBuilder :=
  b.modify (fun p => { p with visible := false })

/-- Embeds `ListPropsBuilder::with_rows`. -/
def ListPropsBuilder.with_rows (b : ListPropsBuilder) (table : TextTable) : ListPropsBuilder :=
  b.modify (fun p =>
    { p with own := insertAssoc PROP_TABLE (PropPayload.One (PropValue.table table)) p.own })

/-- Embeds `ListPropsBuilder::with_max_scroll_step`. -/
def ListPropsBuilder.with_max_scroll_step (b : ListPropsBuilder) (step : Nat) :
    ListPropsBuilder :=
  b.modify (fun p =>
    { p with own := insertAssoc PROP_MAX_STEP (PropPayload.One (PropValue.usize step)) p.own })

/-- Embeds `ListPropsBuilder::scrollable`. -/
def ListPropsBuilder.scrollable (b : ListPropsBuilder) (scrollable : Bool) : ListPropsBuilder :=
  b.modify (fun p =>
    { p with
      own := insertAssoc PROP_SCROLLABLE (PropPayload.One (PropValue.bool scrollable)) p.own })

/-- Embeds `LabelPropsBuilder`: same single-consumption shape as the List
builder. -/
structure LabelPropsBuilder where
  props : Option Props
deriving DecidableEq, Repr

/-- Embeds `LabelPropsBuilder::default()`. -/
def LabelPropsBuilder.default : LabelPropsBuilder :=
  { props := some Props.default }

/-- Embeds `PropsBuilder::build` for `LabelPropsBuilder`:
`self.props.take().unwrap()` — `none` models the panic on an
already-consumed builder. -/
def LabelPropsBuilder.build (b : LabelPropsBuilder) : Option (Props × LabelPropsBuilder) :=
  match b.props with
  | some p => some (p, { props := none })
  | none => none

/-- Embeds `LabelPropsBuilder::with_text`. -/
def LabelPropsBuilder.with_text (b : LabelPropsBuilder) (text : String) : LabelPropsBuilder :=
  match b.props with
  | some p =>
    { props := some { p with own := insertAssoc PROP_TEXT (PropPayload.One (PropValue.str text)) p.own } }
  | none => b

-- -- Invariant and reachability of the List state machine

/-- The List selection invariant: an empty list keeps index 0, a non-empty
list keeps the index strictly below the length. -/
def listInv (s : OwnStates) : Prop :=
  (s.list_len = 0 → s.list_index = 0) ∧ (0 < s.list_len → s.list_index < s.list_len)

/-- Reachable List states: anything produced by `List::new` followed by any
sequence of `on`, `update`, `active` and `blur` calls. -/
inductive Reachable : ListComp → Prop where
  | new (props : Props) : Reachable (ListComp.new props)
  | onEv (l : ListComp) (ev : Event) : Reachable l → Reachable (l.on ev).1
  | updateProps (l : ListComp) (props : Props) : Reachable l → Reachable (l.update props).1
  | activate (l : ListComp) : Reachable l → Reachable l.active
  | blurEv (l : ListComp) : Reachable l → Reachable l.blur

lemma listInv_of_eq (s1 s2 : OwnStates) (hi : s1.list_index = s2.list_index)
    (hn : s1.list_len = s2.list_len) (h : listInv s2) : listInv s1 := by
  unfold listInv at *
  omega

lemma listInv_incr (s : OwnStates) (h : listInv s) : listInv s.incr_list_index := by
  unfold listInv at *
  unfold OwnStates.incr_list_index
  split
  all_goals try dsimp only
  all_goals omega

lemma listInv_decr (s : OwnStates) (h : listInv s) : listInv s.decr_list_index := by
  unfold listInv at *
  unfold OwnStates.decr_list_index
  split
  all_goals try dsimp only
  all_goals omega

lemma listInv_fix (s : OwnStates) : listInv s.fix_list_index := by
  unfold listInv OwnStates.fix_list_index
  split
  · dsimp only
    omega
  · split
    all_goals try dsimp only
    all_goals omega

lemma listInv_at_first (s : OwnStates) : listInv s.list_index_at_first := by
  unfold listInv OwnStates.list_index_at_first
  dsimp only
  omega

lemma listInv_at_last (s : OwnStates) : listInv s.list_index_at_last := by
  unfold listInv OwnStates.list_index_at_last
  split
  all_goals try dsimp only
  all_goals omega

lemma listInv_iterate_incr (n : Nat) (s : OwnStates) (h : listInv s) :
    listInv (Nat.iterate OwnStates.incr_list_index n s) := by
  induction n with
  | zero => exact h
  | succ k ih =>
    rw [Function.iterate_succ_apply']
    exact listInv_incr _ ih

lemma listInv_iterate_decr (n : Nat) (s : OwnStates) (h : listInv s) :
    listInv (Nat.iterate OwnStates.decr_list_index n s) := by
  induction n with
  | zero => exact h
  | succ k ih =>
    rw [Function.iterate_succ_apply']
    exact listInv_decr _ ih

lemma listInv_on (l : ListComp) (ev : Event) (h : listInv l.states) :
    listInv (l.on ev).1.states := by
  cases ev with
  | Key key =>
    obtain ⟨code, mods⟩ := key
    by_cases hs : l.scrollable = true
    · cases code <;>
        simp only [ListComp.on, hs, if_true] <;>
        first
          | exact h
          | exact listInv_incr _ h
          | exact listInv_decr _ h
          | exact listInv_iterate_incr _ _ h
          | exact listInv_iterate_decr _ _ h
          | exact listInv_at_last _
          | exact listInv_at_first _
    · simpa [ListComp.on, hs] using h
  | Mouse => simpa [ListComp.on] using h
  | Resize w h2 => simpa [ListComp.on] using h
  | Tick => simpa [ListComp.on] using h

lemma listInv_update (l : ListComp) (props : Props) : listInv (l.update props).1.states := by
  unfold ListComp.update
  dsimp only
  split
  · exact listInv_of_eq _ _ rfl rfl (listInv_fix (l.states.set_list_len (tableLen props)))
  · exact listInv_fix (l.states.set_list_len (tableLen props))

lemma listInv_active (l : ListComp) (h : listInv l.states) : listInv l.active.states := by
  unfold ListComp.active
  split
  · exact listInv_of_eq _ _ rfl rfl h
  · exact h

lemma listInv_blur (l : ListComp) (h : listInv l.states) : listInv l.blur.states :=
  listInv_of_eq _ _ rfl rfl h

lemma listInv_new (props : Props) : listInv (ListComp.new props).states := by
  unfold listInv ListComp.new
  dsimp only
  omega

lemma listInv_reachable (l : ListComp) (h : Reachable l) : listInv l.states := by
  induction h with
  | new props => exact listInv_new props
  | onEv l ev _ ih => exact listInv_on l ev ih
  | updateProps l props _ _ => exact listInv_update l props
  | activate l _ ih => exact listInv_active l ih
  | blurEv l _ ih => exact listInv_blur l ih

-- -- Index arithmetic of the navigation keys

lemma incr_focus (s : OwnStates) : s.incr_list_index.focus = s.focus := by
  unfold OwnStates.incr_list_index
  split <;> rfl

lemma incr_len (s : OwnStates) : s.incr_list_index.list_len = s.list_len := by
  unfold OwnStates.incr_list_index
  split <;> rfl

lemma decr_focus (s : OwnStates) : s.decr_list_index.focus = s.focus := by
  unfold OwnStates.decr_list_index
  split <;> rfl

lemma decr_len (s : OwnStates) : s.decr_list_index.list_len = s.list_len := by
  unfold OwnStates.decr_list_index
  split <;> rfl

lemma iterate_incr_focus (n : Nat) (s : OwnStates) :
    (Nat.iterate OwnStates.incr_list_index n s).focus = s.focus := by
  induction n with
  | zero => rfl
  | succ k ih => rw [Function.iterate_succ_apply', incr_focus, ih]

lemma iterate_incr_len (n : Nat) (s : OwnStates) :
    (Nat.iterate OwnStates.incr_list_index n s).list_len = s.list_len := by
  induction n with
  | zero => rfl
  | succ k ih => rw [Function.iterate_succ_apply', incr_len, ih]

lemma iterate_decr_focus (n : Nat) (s : OwnStates) :
    (Nat.iterate OwnStates.decr_list_index n s).focus = s.focus := by
  induction n with
  | zero => rfl
  | succ k ih => rw [Function.iterate_succ_apply', decr_focus, ih]

lemma iterate_decr_len (n : Nat) (s : OwnStates) :
    (Nat.iterate OwnStates.decr_list_index n s).list_len = s.list_len := by
  induction n with
  | zero => rfl
  | succ k ih => rw [Function.iterate_succ_apply', decr_len, ih]

lemma iterate_incr_index (n : Nat) (s : OwnStates) (h : n ≤ s.list_len - 1 - s.list_index) :
    (Nat.iterate OwnStates.incr_list_index n s).list_index = s.list_index + n := by
  induction n generalizing s with
  | zero => rfl
  | succ k ih =>
    rw [Function.iterate_succ_apply]
    have hfire : s.list_index + 1 < s.list_len := by omega
    have hstep : s.incr_list_index = { s with list_index := s.list_index + 1 } := by
      unfold OwnStates.incr_list_index
      rw [if_pos hfire]
    rw [hstep, ih]
    · dsimp only
      omega
    · dsimp only
      omega

lemma iterate_decr_index (n : Nat) (s : OwnStates) (h : n ≤ s.list_index) :
    (Nat.iterate OwnStates.decr_list_index n s).list_index = s.list_index - n := by
  induction n generalizing s with
  | zero => rfl
  | succ k ih =>
    rw [Function.iterate_succ_apply]
    have hfire : s.list_index > 0 := by omega
    have hstep : s.decr_list_index = { s with list_index := s.list_index - 1 } := by
      unfold OwnStates.decr_list_index
      rw [if_pos hfire]
    rw [hstep, ih]
    · dsimp only
      omega
    · dsimp only
      omega

lemma calc_max_step_ahead_eq (s : OwnStates) (max : Nat) :
    s.calc_max_step_ahead max = min max (s.list_len - 1 - s.list_index) := by
  obtain ⟨f, i, n⟩ := s
  unfold OwnStates.calc_max_step_ahead
  dsimp only
  cases n with
  | zero => simp
  | succ k =>
    show (if k + 1 - 1 - i > max then max else k + 1 - 1 - i) = min max (k + 1 - 1 - i)
    split <;> omega

lemma calc_max_step_behind_eq (s : OwnStates) (max : Nat) :
    s.calc_max_step_behind max = min max s.list_index := by
  unfold OwnStates.calc_max_step_behind
  split <;> omega

lemma pagedown_index (s : OwnStates) (max : Nat) :
    (Nat.iterate OwnStates.incr_list_index (s.calc_max_step_ahead max) s).list_index =
      s.list_index + min max (s.list_len - 1 - s.list_index) := by
  rw [calc_max_step_ahead_eq, iterate_incr_index]
  omega

lemma pageup_index (s : OwnStates) (max : Nat) :
    (Nat.iterate OwnStates.decr_list_index (s.calc_max_step_behind max) s).list_index =
      s.list_index - min max s.list_index := by
  rw [calc_max_step_behind_eq, iterate_decr_index]
  omega

-- -- Concrete fixtures for the spec scenarios

/-- Fold a list of events through `List::on`, recording the selection index
after each event. -/
def indexTrace (l : ListComp) : List Event → List Nat
  | [] => []
  | ev :: rest =>
    let next := (l.on ev).1
    next.states.list_index :: indexTrace next rest

/-- A key event with no modifiers, as `KeyEvent::from(code)` produces. -/
def keyOf (c : KeyCode) : Event :=
  Event.Key { code := c }

/-- A table with nine one-column rows. -/
def table9 : TextTable :=
  (List.range 9).map (fun _ => [{ content := "row" }])

/-- Scenario-1 props: scrollable, max-step 4, nine rows. -/
def props9 : Props :=
  { Props.default with
    own :=
      [ (PROP_TABLE, PropPayload.One (PropValue.table table9))
      , (PROP_MAX_STEP, PropPayload.One (PropValue.usize 4))
      , (PROP_SCROLLABLE, PropPayload.One (PropValue.bool true)) ] }

/-- Scenario-1 starting component: fresh List over `props9`, index 0. -/
def list9 : ListComp :=
  ListComp.new props9

/-- Scenario-3 props: same store but with a two-row table. -/
def props2 : Props :=
  { props9 with
    own := insertAssoc PROP_TABLE
            (PropPayload.One (PropValue.table [[{ content := "a" }], [{ content := "b" }]]))
            props9.own }

/-- A List over the nine-row props whose current index is 7 (reachable via
End then Up from `list9`). -/
def list9at7 : ListComp :=
  ((list9.on (keyOf KeyCode.End)).1.on (keyOf KeyCode.Up)).1

/-- The scenario-1 list after receiving focus: scrollable, hence focused. -/
def list9focused : ListComp :=
  list9.active

-- -- Shape lemmas about update, fix and render

lemma fix_len (s : OwnStates) : s.fix_list_index.list_len = s.list_len := by
  unfold OwnStates.fix_list_index
  split
  · rfl
  · split <;> rfl

lemma fix_focus (s : OwnStates) : s.fix_list_index.focus = s.focus := by
  unfold OwnStates.fix_list_index
  split
  · rfl
  · split <;> rfl

lemma fix_index_eq (s : OwnStates)
    (h : s.list_index < s.list_len ∨ (s.list_len = 0 ∧ s.list_index = 0)) :
    s.fix_list_index.list_index = s.list_index := by
  unfold OwnStates.fix_list_index
  split
  · dsimp only
    omega
  · split
    all_goals try dsimp only
    all_goals omega

lemma at_first_focus (s : OwnStates) : s.list_index_at_first.focus = s.focus := rfl

lemma at_first_len (s : OwnStates) : s.list_index_at_first.list_len = s.list_len := rfl

lemma at_last_focus (s : OwnStates) : s.list_index_at_last.focus = s.focus := by
  unfold OwnStates.list_index_at_last
  split <;> rfl

lemma at_last_len (s : OwnStates) : s.list_index_at_last.list_len = s.list_len := by
  unfold OwnStates.list_index_at_last
  split <;> rfl

lemma update_props (l : ListComp) (p : Props) : (l.update p).1.props = p := by
  unfold ListComp.update ListComp.blur
  dsimp only
  split <;> rfl

lemma update_len (l : ListComp) (p : Props) : (l.update p).1.states.list_len = tableLen p := by
  unfold ListComp.update ListComp.blur
  dsimp only
  split <;> exact fix_len (l.states.set_list_len (tableLen p))

lemma update_index (l : ListComp) (p : Props) :
    (l.update p).1.states.list_index =
      ((l.states.set_list_len (tableLen p)).fix_list_index).list_index := by
  unfold ListComp.update ListComp.blur
  dsimp only
  split <;> rfl

lemma update_focus (l : ListComp) (p : Props) :
    (l.update p).1.states.focus = (if scrollableFlag p then false else l.states.focus) := by
  unfold ListComp.update ListComp.blur ListComp.scrollable
  dsimp only
  split
  · rfl
  · exact fix_focus (l.states.set_list_len (tableLen p))

lemma render_congr (l1 l2 : ListComp) (hp : l1.props = l2.props)
    (hf : l1.states.focus = l2.states.focus)
    (hi : l1.states.list_index = l2.states.list_index) : l1.render = l2.render := by
  obtain ⟨p1, f1, i1, n1⟩ := l1
  obtain ⟨p2, f2, i2, n2⟩ := l2
  dsimp only at hp hf hi
  subst hp
  subst hf
  subst hi
  rfl

-- -- Claim theorems

/-- C1: for every reachable state of the List component — any state produced
by `List::new` from arbitrary props, followed by any sequence of `on`,
`update`, `active` and `blur` calls — the selection index satisfies
`0 <= index`, `length == 0 → index == 0`, and `length > 0 → index < length`. -/
theorem list_reachable_selection_invariant (l : ListComp) (h : Reachable l) :
    0 ≤ l.states.list_index ∧ (l.states.list_len = 0 → l.states.list_index = 0) ∧
      (0 < l.states.list_len → l.states.list_index < l.states.list_len) :=
  ⟨Nat.zero_le _, (listInv_reachable l h).1, (listInv_reachable l h).2⟩

theorem list_reachable_selection_invariant_witness :
    0 ≤ (ListComp.new props9).states.list_index ∧
      ((ListComp.new props9).states.list_len = 0 → (ListComp.new props9).states.list_index = 0) ∧
      (0 < (ListComp.new props9).states.list_len →
        (ListComp.new props9).states.list_index < (ListComp.new props9).states.list_len) :=
  list_reachable_selection_invariant (ListComp.new props9) (Reachable.new props9)

/-- C6: `blur` clears the focus flag unconditionally (so doing it twice
still leaves `focus == false`), while `active` sets the focus flag exactly
when the scrollable flag is set and is a no-op on a non-scrollable List,
so it never sets `focus` there. -/
theorem list_active_blur_focus (l : ListComp) :
    l.blur.states.focus = false ∧ l.blur.blur.states.focus = false ∧
      (l.scrollable = true → l.active.states.focus = true) ∧
      (l.scrollable = false → l.active = l) := by
  refine ⟨rfl, rfl, fun hs => ?_, fun hs => ?_⟩
  · unfold ListComp.active
    rw [if_pos hs]
  · unfold ListComp.active
    rw [if_neg (by simp [hs])]

theorem list_active_blur_focus_witness :
    list9.blur.states.focus = false ∧
      (list9.scrollable = true ∧ list9.active.states.focus = true) ∧
      ((ListComp.new Props.default).scrollable = false ∧
        (ListComp.new Props.default).active = ListComp.new Props.default) :=
  ⟨(list_active_blur_focus list9).1,
    ⟨by decide, (list_active_blur_focus list9).2.2.1 (by decide)⟩,
    ⟨by decide, (list_active_blur_focus (ListComp.new Props.default)).2.2.2 (by decide)⟩⟩

/-- C7: for every List and every Label, `on` echoes every key event as
`Msg::OnKey` with exactly that key — whatever the scrollable flag or focus —
and every non-key event yields `Msg::None` and leaves the component
unchanged. -/
theorem on_echoes_key_events (l : ListComp) (lb : Label) (k : KeyEvent) (w h : Nat) :
    (l.on (Event.Key k)).2 = Msg.OnKey k ∧ (lb.on (Event.Key k)).2 = Msg.OnKey k ∧
      l.on Event.Mouse = (l, Msg.None) ∧ l.on (Event.Resize w h) = (l, Msg.None) ∧
      l.on Event.Tick = (l, Msg.None) ∧ lb.on Event.Mouse = (lb, Msg.None) ∧
      lb.on (Event.Resize w h) = (lb, Msg.None) ∧ lb.on Event.Tick = (lb, Msg.None) := by
  obtain ⟨code, mods⟩ := k
  refine ⟨?_, rfl, rfl, rfl, rfl, rfl, rfl, rfl⟩
  by_cases hs : l.scrollable = true
  · cases code <;> simp [ListComp.on, hs]
  · simp [ListComp.on, hs]

/-- C10: `List::get_state` returns `Payload::None` in every state — the
selected index is never exposed through it. -/
theorem list_get_state_none (l : ListComp) : l.get_state = Payload.None :=
  rfl

/-- C9: after `List::update` with new props whose scrollable flag is set,
the component's focus is false: update blurs a scrollable List on every
property replacement, whatever the previous focus. -/
theorem list_update_blurs_scrollable (l : ListComp) (p : Props)
    (h : scrollableFlag p = true) : (l.update p).1.states.focus = false := by
  rw [update_focus, if_pos h]

theorem list_update_blurs_scrollable_witness :
    list9focused.states.focus = true ∧ scrollableFlag props9 = true ∧
      (list9focused.update props9).1.states.focus = false :=
  ⟨by decide, by decide, list_update_blurs_scrollable list9focused props9 (by decide)⟩

/-- C8: a fresh props builder yields its accumulated props on the first
`build`, and a second `build` on the same builder hits the
`self.props.take().unwrap()` panic (modelled as `none`) instead of
returning a value. -/
theorem builders_single_finalize (b : ListPropsBuilder) (lb : LabelPropsBuilder)
    (p q : Props) (hb : b.props = some p) (hlb : lb.props = some q) :
    b.build = some (p, { props := none }) ∧
      ListPropsBuilder.build { props := none } = none ∧
      lb.build = some (q, { props := none }) ∧
      LabelPropsBuilder.build { props := none } = none := by
  refine ⟨?_, rfl, ?_, rfl⟩
  · unfold ListPropsBuilder.build
    rw [hb]
  · unfold LabelPropsBuilder.build
    rw [hlb]

theorem builders_single_finalize_witness :
    ListPropsBuilder.default.build = some (Props.default, { props := none }) ∧
      ListPropsBuilder.build { props := none } = none ∧
      LabelPropsBuilder.default.build = some (Props.default, { props := none }) ∧
      LabelPropsBuilder.build { props := none } = none :=
  builders_single_finalize ListPropsBuilder.default LabelPropsBuilder.default
    Props.default Props.default rfl rfl

/-- C4: `List::update` recomputes the length as the row count of the new
table payload (0 when absent or not a table) and clamps the index to
`length-1` (or 0 when `length == 0`) whenever `index >= length`, on every
property replacement; in particular updating a List at index 7 with a
two-row table yields `length == 2, index == 1`. -/
theorem list_update_recomputes_length_and_clamps (l : ListComp) (p : Props) :
    (l.update p).1.states.list_len = tableLen p ∧
      (l.states.list_index ≥ tableLen p →
        (l.update p).1.states.list_index =
          (if tableLen p = 0 then 0 else tableLen p - 1)) ∧
      (list9at7.update props2).1.states.list_len = 2 ∧
      (list9at7.update props2).1.states.list_index = 1 := by
  refine ⟨update_len l p, fun hge => ?_, by decide, by decide⟩
  rw [update_index]
  unfold OwnStates.set_list_len OwnStates.fix_list_index
  dsimp only
  split
  all_goals try split
  all_goals try dsimp only
  all_goals omega

theorem list_update_recomputes_length_and_clamps_witness :
    list9at7.states.list_index ≥ tableLen props2 ∧
      (list9at7.update props2).1.states.list_len = tableLen props2 ∧
      (list9at7.update props2).1.states.list_index =
        (if tableLen props2 = 0 then 0 else tableLen props2 - 1) ∧
      (list9at7.update props2).1.states.list_len = 2 ∧
      (list9at7.update props2).1.states.list_index = 1 :=
  ⟨by decide, (list_update_recomputes_length_and_clamps list9at7 props2).1,
    (list_update_recomputes_length_and_clamps list9at7 props2).2.1 (by decide),
    (list_update_recomputes_length_and_clamps list9at7 props2).2.2.1,
    (list_update_recomputes_length_and_clamps list9at7 props2).2.2.2⟩

/-- C5: on a scrollable List with nine rows, max-step 4 and starting index
0, the key sequence Down, Down, PageDown, PageDown, PageUp, PageUp, End,
Home produces the index trace 1, 2, 6, 8, 4, 0, 8, 0; in general PageDown
advances the index by `min(max-step, length-1-index)` and PageUp retreats
it by `min(max-step, index)`. -/
theorem list_scroll_scenario_and_page_steps :
    indexTrace list9
        [ keyOf KeyCode.Down, keyOf KeyCode.Down, keyOf KeyCode.PageDown
        , keyOf KeyCode.PageDown, keyOf KeyCode.PageUp, keyOf KeyCode.PageUp
        , keyOf KeyCode.End, keyOf KeyCode.Home ] = [1, 2, 6, 8, 4, 0, 8, 0] ∧
      (∀ (l : ListComp) (k : KeyEvent), l.scrollable = true → k.code = KeyCode.PageDown →
        (l.on (Event.Key k)).1.states.list_index =
          l.states.list_index +
            min l.max_step (l.states.list_len - 1 - l.states.list_index)) ∧
      (∀ (l : ListComp) (k : KeyEvent), l.scrollable = true → k.code = KeyCode.PageUp →
        (l.on (Event.Key k)).1.states.list_index =
          l.states.list_index - min l.max_step l.states.list_index) := by
  refine ⟨by decide, fun l k hs hk => ?_, fun l k hs hk => ?_⟩
  · obtain ⟨code, mods⟩ := k
    dsimp only at hk
    subst hk
    simp only [ListComp.on, hs, if_true]
    exact pagedown_index l.states l.max_step
  · obtain ⟨code, mods⟩ := k
    dsimp only at hk
    subst hk
    simp only [ListComp.on, hs, if_true]
    exact pageup_index l.states l.max_step

theorem list_scroll_scenario_and_page_steps_witness :
    list9.scrollable = true ∧
      (list9.on (keyOf KeyCode.PageDown)).1.states.list_index =
        list9.states.list_index +
          min list9.max_step (list9.states.list_len - 1 - list9.states.list_index) ∧
      (list9.on (keyOf KeyCode.PageUp)).1.states.list_index =
        list9.states.list_index - min list9.max_step list9.states.list_index :=
  ⟨by decide,
    list_scroll_scenario_and_page_steps.2.1 list9 { code := KeyCode.PageDown } (by decide) rfl,
    list_scroll_scenario_and_page_steps.2.2 list9 { code := KeyCode.PageUp } (by decide) rfl⟩

/-- C2 counterexample: for a visible, scrollable, focused List,
`update(get_props())` changes the rendered output — `update` blurs a
scrollable List, so the active flag and the highlight colors flip. -/
theorem list_update_roundtrip_render_cex :
    list9focused.states.focus = true ∧
      (list9focused.update list9focused.get_props).1.render ≠ list9focused.render := by
  decide

/-- C2 amended: `update(get_props())` leaves the rendered output unchanged
for every List that is not both scrollable and focused (update blurs a
scrollable List) and whose index is consistent with its table (as in every
reachable state), since `update` re-clamps the index. -/
theorem list_update_roundtrip_render_preserved (l : ListComp)
    (h1 : l.scrollable = true → l.states.focus = false)
    (h2 : l.states.list_index < tableLen l.props ∨
      (tableLen l.props = 0 ∧ l.states.list_index = 0)) :
    (l.update l.get_props).1.render = l.render := by
  apply render_congr
  · rw [update_props]
    rfl
  · rw [update_focus]
    split
    · rename_i hscr
      exact (h1 hscr).symm
    · rfl
  · rw [update_index]
    rw [fix_index_eq]
    · rfl
    · dsimp only [OwnStates.set_list_len]
      exact h2

theorem list_update_roundtrip_render_preserved_witness :
    (list9.scrollable = true → list9.states.focus = false) ∧
      (list9.states.list_index < tableLen list9.props ∨
        (tableLen list9.props = 0 ∧ list9.states.list_index = 0)) ∧
      (list9.update list9.get_props).1.render = list9.render :=
  ⟨by decide, by decide,
    list_update_roundtrip_render_preserved list9 (by decide) (by decide)⟩

/-- C3 counterexample: a scrollable List that is not focused still moves its
selection index on a Down key — `List::on` never consults the focus flag. -/
theorem list_on_unfocused_moves_cex :
    list9.scrollable = true ∧ list9.states.focus = false ∧
      (list9.on (keyOf KeyCode.Down)).1.states.list_index ≠ list9.states.list_index := by
  decide

/-- C3 amended: `List::on` changes the internal selection state only while
the scrollable flag is set — focus is not consulted: when not scrollable
every event leaves the component unchanged, and no event ever changes the
focus, the length or the props. -/
theorem list_on_scrollable_frame (l : ListComp) (ev : Event) :
    (l.scrollable = false → (l.on ev).1 = l) ∧
      (l.on ev).1.states.focus = l.states.focus ∧
      (l.on ev).1.states.list_len = l.states.list_len ∧
      (l.on ev).1.props = l.props := by
  cases ev with
  | Key key =>
    obtain ⟨code, mods⟩ := key
    by_cases hs : l.scrollable = true
    · refine ⟨fun hns => absurd hs (by simp [hns]), ?_⟩
      cases code <;>
        simp [ListComp.on, hs, incr_focus, incr_len, decr_focus, decr_len,
          iterate_incr_focus, iterate_incr_len, iterate_decr_focus, iterate_decr_len,
          at_last_focus, at_last_len, at_first_focus, at_first_len]
    · simp [ListComp.on, hs]
  | Mouse => exact ⟨fun _ => rfl, rfl, rfl, rfl⟩
  | Resize w h => exact ⟨fun _ => rfl, rfl, rfl, rfl⟩
  | Tick => exact ⟨fun _ => rfl, rfl, rfl, rfl⟩

theorem list_on_scrollable_frame_witness :
    (ListComp.new Props.default).scrollable = false ∧
      ((ListComp.new Props.default).on (keyOf KeyCode.Down)).1 = ListComp.new Props.default ∧
      ((ListComp.new Props.default).on (keyOf KeyCode.Down)).1.states.focus =
        (ListComp.new Props.default).states.focus :=
  ⟨by decide,
    (list_on_scrollable_frame (ListComp.new Props.default) (keyOf KeyCode.Down)).1 (by decide),
    (list_on_scrollable_frame (ListComp.new Props.default) (keyOf KeyCode.Down)).2.1⟩

end TuiRealm
